import Mathlib

/-!
# Verification of the shopsite catalog manager

Shallow embedding of `src/app.py` (Flask + SQLAlchemy e-commerce catalog
manager) and proofs about its request handlers.

Conventions of the embedding:
* Database tables become Lean lists of records; the auto-increment primary
  key is an explicit `Nat` field.
* Each request handler becomes a pure function from the database state (and
  the parsed form data) to the new state together with an explicit outcome
  value standing for the flash/redirect/render performed.
* Python strings are Lean `String`s; `str.strip()` / truthiness / `or` are
  modelled by explicit helper functions below.
* `float(...)` is modelled with exact arithmetic (a decimal mantissa and a
  power-of-ten denominator); none of the claims settled here depends on
  binary floating-point rounding.
* The upload directory is a list of filenames; `os.path.exists` is list
  membership, saving a file appends its name.
* All recursion is structural (fuel-based where the Python loop is
  unbounded) so every definition evaluates by `decide` / `rfl`.
-/

namespace Shopsite

/-! ## Python string helpers -/

/-- Python truthiness-based `a or b` for strings: `a` if non-empty else `b`. -/
def pyOrStr (a b : String) : String :=
  if a = "" then b else a

/-- Python truthiness-based `a or b` for integers: `a` if non-zero else `b`.
This is the pattern `parse_price_to_cents(price_str) or p.price_cents`. -/
def pyOrInt (a b : Int) : Int :=
  if a = 0 then b else a

/-- Characters treated as whitespace by Python `str.strip()` / `str.split()`
(modelled at the ASCII level). -/
def pyIsSpace (c : Char) : Bool :=
  c == ' ' || c == '\t' || c == '\n' || c == '\r' || c == '\x0b' || c == '\x0c'

/-- Drop trailing characters satisfying `p` (helper for `strip`). -/
def dropTrailing (p : Char → Bool) (l : List Char) : List Char :=
  (l.reverse.dropWhile p).reverse

/-- Python `str.strip()` with no arguments: remove leading and trailing
whitespace. -/
def pyStrip (s : String) : String :=
  String.mk (dropTrailing pyIsSpace (s.data.dropWhile pyIsSpace))

/-- Python `str.strip("._")` as used by `werkzeug.secure_filename`. -/
def stripDotUnderscore (l : List Char) : List Char :=
  dropTrailing (fun c => c == '.' || c == '_')
    (l.dropWhile (fun c => c == '.' || c == '_'))

/-- Python `str.lower()` on a single ASCII character. -/
def pyToLower (c : Char) : Char :=
  if 'A' ≤ c ∧ c ≤ 'Z' then Char.ofNat (c.toNat + 32) else c

/-- Python `str.lower()`. -/
def pyLower (s : String) : String :=
  String.mk (s.data.map pyToLower)

/-! ## Decimal representation of naturals

Model of Python's decimal formatting of the loop counter in
`save_image` (`f"{base}_{i}{ext}"`).  Defined with explicit fuel so that it
is structurally recursive and evaluates inside the kernel; `natRepr` below
is proved injective via the round-trip `digitsVal`. -/

/-- Digit characters of `n` in base 10, most significant first.
`fuel` must exceed `n`; `natRepr` always supplies enough. -/
def natReprAux : Nat → Nat → List Char
  | 0, _ => []
  | fuel + 1, n =>
    if n < 10 then [Nat.digitChar n]
    else natReprAux fuel (n / 10) ++ [Nat.digitChar (n % 10)]

/-- Decimal string of a natural number (Python `str(i)` / `f"{i}"`). -/
def natRepr (n : Nat) : String :=
  String.mk (natReprAux (n + 1) n)

/-- Read a digit list back into the natural number it denotes. -/
def digitsVal (l : List Char) : Nat :=
  l.foldl (fun a c => a * 10 + (c.toNat - 48)) 0

/-! ## Modelled `werkzeug.utils.secure_filename`

Modelled for ASCII inputs: the NFKD-normalise / encode("ascii","ignore")
step is dropping non-ASCII characters, `os.sep` (`/`) is replaced by a
space, the name is split on whitespace and re-joined with underscores,
characters outside `[A-Za-z0-9_.-]` are removed, and leading/trailing `.`
and `_` are stripped. -/

/-- Python `str.split()` (split on whitespace runs, dropping empty parts).
The accumulator holds the current word reversed. -/
def pySplitWsAux : List Char → List Char → List (List Char)
  | cur, [] => if cur.isEmpty then [] else [cur.reverse]
  | cur, c :: rest =>
    if pyIsSpace c then
      if cur.isEmpty then pySplitWsAux [] rest
      else cur.reverse :: pySplitWsAux [] rest
    else pySplitWsAux (c :: cur) rest

/-- Join character-list words with `'_'` (Python `"_".join(...)`). -/
def joinUnderscore : List (List Char) → List Char
  | [] => []
  | [w] => w
  | w :: ws => w ++ '_' :: joinUnderscore ws

/-- Characters kept by werkzeug's `_filename_ascii_strip_re`. -/
def keepFilenameChar (c : Char) : Bool :=
  c.isAlphanum && c.toNat < 128 || c == '_' || c == '.' || c == '-'

/-- Model of `werkzeug.utils.secure_filename` (POSIX, ASCII inputs). -/
def secure_filename (s : String) : String :=
  let ascii := s.data.filter (fun c => c.toNat < 128)
  let noSep := ascii.map (fun c => if c == '/' then ' ' else c)
  let joined := joinUnderscore (pySplitWsAux [] noSep)
  let kept := joined.filter keepFilenameChar
  String.mk (stripDotUnderscore kept)

/-! ## `os.path.splitext` -/

/-- `os.path.splitext`: split at the final `'.'`, unless every character
before it is itself a `'.'` (then there is no extension).  The two parts
always concatenate back to the input. -/
def splitext (s : String) : String × String :=
  let cs := s.data
  let afterRev := cs.reverse.takeWhile (fun c => c ≠ '.')
  if afterRev.length = cs.length then (s, "")
  else
    let pre := cs.take (cs.length - afterRev.length - 1)
    if pre.isEmpty ∨ pre.all (fun c => c == '.') then (s, "")
    else (String.mk (cs.take (cs.length - afterRev.length - 1)),
          String.mk (cs.drop (cs.length - afterRev.length - 1)))

/-! ## Model of Python `float(...)` and `int(...)` parsing

`float(text)` is modelled with exact arithmetic: a finite value is a
mantissa `m : Int` over a scale `k : Nat`, denoting `m / 10 ^ k`.  The
claims settled against this model do not depend on binary floating-point
rounding. -/

/-- Result of Python `float(text)`. -/
inductive PyFloat where
  | finite (m : Int) (k : Nat)
  | inf
  | neginf
  | nan
deriving DecidableEq, Repr

/-- Consume a Python digit group `digit (["_"] digit)*`, accumulating the
value and the number of digits consumed.  An underscore is only consumed
between digits (so a leading underscore ends the group with zero digits
consumed, as in CPython); an underscore not followed by a digit also
terminates the group (the leftover then fails the full-consumption check,
again as in CPython). -/
def digitGroup : Nat → Nat → List Char → Nat × Nat × List Char
  | acc, len, [] => (acc, len, [])
  | acc, len, c :: rest =>
    if c.isDigit then digitGroup (acc * 10 + (c.toNat - 48)) (len + 1) rest
    else if c == '_' then
      match rest with
      | d :: rest2 =>
        if 0 < len ∧ d.isDigit = true then
          digitGroup (acc * 10 + (d.toNat - 48)) (len + 1) rest2
        else (acc, len, c :: rest)
      | [] => (acc, len, c :: rest)
    else (acc, len, c :: rest)

/-- Parse the part after `e`/`E` in a float literal: optional sign and a
digit group. -/
def parseExponentTail (cs : List Char) : Option (Bool × Nat × List Char) :=
  let signed : Bool × List Char :=
    match cs with
    | '+' :: r => (false, r)
    | '-' :: r => (true, r)
    | _ => (false, cs)
  let epr := digitGroup 0 0 signed.2
  if epr.2.1 = 0 then none else some (signed.1, epr.1, epr.2.2)

/-- Parse an unsigned Python float literal (integer part, optional
fraction, optional exponent); returns `(mantissa, scale, rest)`. -/
def parseUnsignedFloat (cs : List Char) : Option (Int × Nat × List Char) :=
  let ipr := digitGroup 0 0 cs
  let core : Option (Nat × Nat × List Char) :=
    if ipr.2.1 = 0 then
      match cs with
      | '.' :: r2 =>
        let fpr := digitGroup 0 0 r2
        if fpr.2.1 = 0 then none else some (fpr.1, fpr.2.1, fpr.2.2)
      | _ => none
    else
      match ipr.2.2 with
      | '.' :: r2 =>
        let fpr := digitGroup 0 0 r2
        some (ipr.1 * 10 ^ fpr.2.1 + fpr.1, fpr.2.1, fpr.2.2)
      | r1 => some (ipr.1, 0, r1)
  match core with
  | none => none
  | some (m0, k0, rest) =>
    match rest with
    | 'e' :: r4 =>
      match parseExponentTail r4 with
      | none => none
      | some (negExp, ev, r6) =>
        if negExp then some ((m0 : Int), k0 + ev, r6)
        else some ((m0 : Int) * 10 ^ ev, k0, r6)
    | 'E' :: r4 =>
      match parseExponentTail r4 with
      | none => none
      | some (negExp, ev, r6) =>
        if negExp then some ((m0 : Int), k0 + ev, r6)
        else some ((m0 : Int) * 10 ^ ev, k0, r6)
    | _ => some ((m0 : Int), k0, rest)

/-- Model of Python `float(s)` for an already-stripped string: optional
sign, then `inf`/`infinity`/`nan` (case-insensitive) or a decimal literal,
consumed entirely. -/
def pyFloatParse (s : String) : Option PyFloat :=
  match s.data with
  | [] => none
  | cs =>
    let signed : Bool × List Char :=
      match cs with
      | '+' :: r => (false, r)
      | '-' :: r => (true, r)
      | _ => (false, cs)
    let low := signed.2.map pyToLower
    if low = "inf".data ∨ low = "infinity".data then
      some (if signed.1 then .neginf else .inf)
    else if low = "nan".data then some .nan
    else
      match parseUnsignedFloat signed.2 with
      | some (m, k, []) => some (.finite (if signed.1 then -m else m) k)
      | _ => none

/-- Python `round(N / D)` for integers `N`, `D > 0`: round half to even. -/
def bankerRound (N D : Int) : Int :=
  let f := Int.fdiv N D
  let r := N - D * f
  if 2 * r < D then f
  else if D < 2 * r then f + 1
  else if f % 2 = 0 then f else f + 1

/-- Model of Python `int(s)` on a string: strip, optional sign, digit
group with underscores, full consumption; `none` models a raised
`ValueError`. -/
def pyIntParse (s : String) : Option Int :=
  match (pyStrip s).data with
  | [] => none
  | cs =>
    let signed : Bool × List Char :=
      match cs with
      | '+' :: r => (false, r)
      | '-' :: r => (true, r)
      | _ => (false, cs)
    let gpr := digitGroup 0 0 signed.2
    if gpr.2.1 = 0 then none
    else
      match gpr.2.2 with
      | [] => some (if signed.1 then -(gpr.1 : Int) else (gpr.1 : Int))
      | _ :: _ => none

/-! ## Model of Python `json.loads` (validity only)

The handlers only use `json.loads` to decide whether the submitted
`attributes_json` text parses; this is a recogniser for the grammar
accepted by `json.loads` with its default settings (JSON values plus the
`NaN` / `Infinity` / `-Infinity` constants).  `fuel` decreases on every
nested call; at least one character is consumed per two units of fuel, so
`2 * length + 2` never exhausts on valid input. -/

/-- Skip JSON whitespace (space, tab, newline, carriage return). -/
def jsonWsSkip (cs : List Char) : List Char :=
  cs.dropWhile (fun c => c == ' ' || c == '\t' || c == '\n' || c == '\r')

/-- Hexadecimal digit test for `\uXXXX` escapes. -/
def isHexChar (c : Char) : Bool :=
  c.isDigit || ('a' ≤ c ∧ c ≤ 'f') || ('A' ≤ c ∧ c ≤ 'F')

/-- Consume the remainder of a JSON string after the opening quote. -/
def jsonStringRest : List Char → Option (List Char)
  | [] => none
  | '"' :: r => some r
  | '\\' :: e :: r =>
    if e == '"' || e == '\\' || e == '/' || e == 'b' || e == 'f' ||
        e == 'n' || e == 'r' || e == 't' then jsonStringRest r
    else if e == 'u' then
      match r with
      | a :: b :: c :: d :: r2 =>
        if isHexChar a && isHexChar b && isHexChar c && isHexChar d then
          jsonStringRest r2
        else none
      | _ => none
    else none
  | c :: r => if c.toNat < 32 then none else jsonStringRest r

/-- Consume an expected literal character sequence. -/
def dropLit : List Char → List Char → Option (List Char)
  | [], cs => some cs
  | l :: ls, c :: cs => if c == l then dropLit ls cs else none
  | _ :: _, [] => none

/-- Consume the digits (with optional sign) of a JSON exponent. -/
def jsonExpDigits (cs : List Char) : Option (List Char) :=
  let r2 : List Char :=
    match cs with
    | '+' :: x => x
    | '-' :: x => x
    | _ => cs
  match r2 with
  | d :: _ => if d.isDigit then some (r2.dropWhile Char.isDigit) else none
  | [] => none

/-- Consume the optional fraction and exponent of a JSON number. -/
def jsonFracExp (cs : List Char) : Option (List Char) :=
  let afterFrac : Option (List Char) :=
    match cs with
    | '.' :: r =>
      match r with
      | d :: _ => if d.isDigit then some (r.dropWhile Char.isDigit) else none
      | [] => none
    | _ => some cs
  match afterFrac with
  | none => none
  | some af =>
    match af with
    | 'e' :: r => jsonExpDigits r
    | 'E' :: r => jsonExpDigits r
    | _ => some af

/-- Consume a JSON number (`-? (0 | [1-9][0-9]*) frac? exp?`). -/
def jsonNumberRest (cs : List Char) : Option (List Char) :=
  let cs1 : List Char :=
    match cs with
    | '-' :: r => r
    | _ => cs
  match cs1 with
  | '0' :: r => jsonFracExp r
  | c :: r => if c.isDigit then jsonFracExp (r.dropWhile Char.isDigit) else none
  | [] => none

mutual

/-- Consume one JSON value (with leading whitespace). -/
def jsonVal : Nat → List Char → Option (List Char)
  | 0, _ => none
  | fuel + 1, cs =>
    match jsonWsSkip cs with
    | '{' :: r =>
      match jsonWsSkip r with
      | '}' :: r2 => some r2
      | r2 => jsonMembers fuel r2
    | '[' :: r =>
      match jsonWsSkip r with
      | ']' :: r2 => some r2
      | r2 => jsonElems fuel r2
    | '"' :: r => jsonStringRest r
    | 't' :: r => dropLit "rue".data r
    | 'f' :: r => dropLit "alse".data r
    | 'n' :: r => dropLit "ull".data r
    | 'N' :: r => dropLit "aN".data r
    | 'I' :: r => dropLit "nfinity".data r
    | '-' :: 'I' :: r => dropLit "nfinity".data r
    | cs2 => jsonNumberRest cs2

/-- Consume the members of a JSON object after `{` (non-empty case). -/
def jsonMembers : Nat → List Char → Option (List Char)
  | 0, _ => none
  | fuel + 1, cs =>
    match jsonWsSkip cs with
    | '"' :: r =>
      match jsonStringRest r with
      | none => none
      | some r2 =>
        match jsonWsSkip r2 with
        | ':' :: r3 =>
          match jsonVal fuel r3 with
          | none => none
          | some r4 =>
            match jsonWsSkip r4 with
            | ',' :: r5 => jsonMembers fuel r5
            | '}' :: r5 => some r5
            | _ => none
        | _ => none
    | _ => none

/-- Consume the elements of a JSON array after `[` (non-empty case). -/
def jsonElems : Nat → List Char → Option (List Char)
  | 0, _ => none
  | fuel + 1, cs =>
    match jsonVal fuel cs with
    | none => none
    | some r =>
      match jsonWsSkip r with
      | ',' :: r2 => jsonElems fuel r2
      | ']' :: r2 => some r2
      | _ => none

end

/-- Does `json.loads(s)` succeed?  (Trailing whitespace allowed.) -/
def json_loads_ok (s : String) : Bool :=
  match jsonVal (2 * s.data.length + 2) s.data with
  | some rest => (jsonWsSkip rest).isEmpty
  | none => false

/-! ## Data model (`app.py` lines 60–163)

Each SQLAlchemy model becomes a record; each table becomes a list of
records inside `Db`.  Relationship navigation (`c.styles`, `f.ref_images`)
is a filter over the child table on the foreign key. -/

/-- `Category` (table `categories`). -/
structure Category where
  id : Nat
  name : String
  description : String := ""
  image_filename : String := ""
deriving DecidableEq, Repr

/-- `Style` (table `styles`); `category_id` is a required foreign key. -/
structure Style where
  id : Nat
  category_id : Nat
  name : String
  description : String := ""
  image_filename : String := ""
deriving DecidableEq, Repr

/-- `Product` (table `products`); `category_id` / `style_id` are nullable
foreign keys. -/
structure Product where
  id : Nat
  name : String
  price_cents : Int := 0
  description : String := ""
  image_filename : String := ""
  category_id : Option Nat := none
  style_id : Option Nat := none
deriving DecidableEq, Repr

/-- `Variant` (table `variants`). -/
structure Variant where
  id : Nat
  product_id : Nat
  sku : String := ""
  stock : Int := 0
  attributes_json : String := "\x7b\x7d"
deriving DecidableEq, Repr

/-- `Fabric` (table `fabrics`); `clearance_price_cents` is nullable. -/
structure Fabric where
  id : Nat
  name : String
  origin : String := ""
  price_cents : Int := 0
  size : String := ""
  description : String := ""
  image_filename : String := ""
  ref_image_filename : String := ""
  is_clearance : Bool := false
  clearance_price_cents : Option Int := none
deriving DecidableEq, Repr

/-- `FabricRef` (table `fabric_refs`). -/
structure FabricRef where
  id : Nat
  fabric_id : Nat
  filename : String
deriving DecidableEq, Repr

/-- `SiteSetting` (table `site_settings`): key-indexed `"1"`/`"0"` rows. -/
structure SiteSetting where
  key : String
  value : String := ""
deriving DecidableEq, Repr

/-- The whole relational state. -/
structure Db where
  categories : List Category := []
  styles : List Style := []
  products : List Product := []
  variants : List Variant := []
  fabrics : List Fabric := []
  fabric_refs : List FabricRef := []
  site_settings : List SiteSetting := []
deriving DecidableEq, Repr

/-- `Fabric.ref_images` (relationship, `app.py` lines 137–139). -/
def Fabric.ref_images (f : Fabric) (db : Db) : List FabricRef :=
  db.fabric_refs.filter (fun r => r.fabric_id == f.id)

/-- `formatCents` on a natural number of cents. -/
def formatCentsNat (n : Nat) : String :=
  natRepr (n / 100) ++ "." ++
    (if n % 100 < 10 then "0" ++ natRepr (n % 100) else natRepr (n % 100))

/-- Two-decimal major-unit rendering of an integer amount of cents
(Python `f"{cents/100:.2f}"`, exact for integer cents). -/
def formatCents (c : Int) : String :=
  if c < 0 then "-" ++ formatCentsNat (-c).toNat else formatCentsNat c.toNat

/-- `Fabric.clearance_price_display` (`app.py` lines 145–149): `None` when
`clearance_price_cents` is null, otherwise the two-decimal string. -/
def Fabric.clearance_price_display (f : Fabric) : Option String :=
  match f.clearance_price_cents with
  | none => none
  | some c => some (formatCents c)

/-- `Product.price_display` (`app.py` lines 103–105). -/
def Product.price_display (p : Product) : String :=
  formatCents p.price_cents

/-! ## Utility functions (`app.py` lines 172–195) -/

/-- Allowed upload extensions (`ALLOWED_EXTENSIONS`). -/
def ALLOWED_EXTENSIONS : List String :=
  ["png", "jpg", "jpeg", "gif", "webp"]

/-- Characters of a filename after the final `'.'` (Python
`filename.rsplit(".", 1)[1]`, assuming a dot is present). -/
def afterLastDot (s : String) : String :=
  String.mk (s.data.reverse.takeWhile (fun c => c ≠ '.')).reverse

/-- `allowed_file` (`app.py` lines 172–173). -/
def allowed_file (filename : String) : Bool :=
  filename.data.contains '.' &&
    (pyLower (afterLastDot filename) ∈ ALLOWED_EXTENSIONS)

/-- An uploaded `FileStorage` candidate: only its client-supplied filename
matters to the handlers modelled here. -/
structure FileStorage where
  filename : String
deriving DecidableEq, Repr

/-- The candidate name `f"{base}_{i}{ext}"` tried by the collision loop. -/
def suffixName (base ext : String) (i : Nat) : String :=
  base ++ "_" ++ natRepr i ++ ext

/-- The collision-avoidance `while os.path.exists(path)` loop of
`save_image` (`app.py` lines 181–185): try `f"{base}_{i}{ext}"` for
`i = 1, 2, …` until the name is free.  `fuel` bounds the iterations;
`save_image` supplies `uploads.length + 1`, which is enough because the
candidate names are pairwise distinct (proved below). -/
def collide_loop (base ext : String) (uploads : List String) :
    String → Nat → Nat → String
  | cand, _, 0 => cand
  | cand, i, fuel + 1 =>
    if cand ∈ uploads then
      collide_loop base ext uploads (suffixName base ext i) (i + 1) fuel
    else cand

/-- `save_image` (`app.py` lines 176–188) over the upload-directory
listing: returns the stored filename (`none` when rejected) and the new
listing. -/
def save_image (file : Option FileStorage) (uploads : List String) :
    Option String × List String :=
  match file with
  | none => (none, uploads)
  | some f =>
    if f.filename ≠ "" ∧ allowed_file f.filename = true then
      let filename := secure_filename f.filename
      let be := splitext filename
      let final := collide_loop be.1 be.2 uploads filename 1 (uploads.length + 1)
      (some final, uploads ++ [final])
    else (none, uploads)

/-- `parse_price_to_cents` (`app.py` lines 191–195):
`int(round(float((text or "0").strip()) * 100))` with every exception
(unparsable text, `inf`, `nan`) caught and turned into `0`. -/
def parse_price_to_cents (text : String) : Int :=
  match pyFloatParse (pyStrip (pyOrStr text "0")) with
  | none => 0
  | some .inf => 0
  | some .neginf => 0
  | some .nan => 0
  | some (.finite m k) => bankerRound (m * 100) ((10 : Int) ^ k)

/-! ## Site flags (`app.py` lines 201–214) -/

/-- `get_flag` (`app.py` lines 201–206). -/
def get_flag (settings : List SiteSetting) (key : String)
    (dflt : Bool := true) : Bool :=
  match settings.find? (fun s => s.key == key) with
  | none => dflt
  | some s => s.value == "1"

/-- `set_flag` (`app.py` lines 209–214): upsert the row. -/
def set_flag (settings : List SiteSetting) (key : String) (value : Bool) :
    List SiteSetting :=
  let v := if value then "1" else "0"
  match settings.find? (fun s => s.key == key) with
  | some _ =>
    settings.map (fun s => if s.key == key then { s with value := v } else s)
  | none => settings ++ [{ key := key, value := v }]

/-! ## Public views (`app.py` lines 233–320) -/

/-- `ORDER BY id DESC` (insertion step). -/
def insertByIdDesc {α : Type} (id : α → Nat) (x : α) : List α → List α
  | [] => [x]
  | y :: ys => if id y ≤ id x then x :: y :: ys else y :: insertByIdDesc id x ys

/-- `ORDER BY id DESC` over a table. -/
def orderByIdDesc {α : Type} (id : α → Nat) (l : List α) : List α :=
  l.foldr (insertByIdDesc id) []

/-- Response of `GET /` (`index`, lines 233–250). -/
inductive IndexResp where
  | siteClosed
  | listing (categories : List Category) (fabric_count clearance_count : Nat)
deriving DecidableEq, Repr

/-- `index` (lines 233–250): visitors see the maintenance page while the
`public_shopfront` flag is off; a logged-in admin always sees the listing. -/
def index (db : Db) (is_admin : Bool) : IndexResp :=
  if get_flag db.site_settings "public_shopfront" true = false ∧ is_admin = false then
    .siteClosed
  else
    .listing (orderByIdDesc Category.id db.categories) db.fabrics.length
      (db.fabrics.filter (fun f => f.is_clearance)).length

/-- Response of `GET /category/<id>` (lines 253–270). -/
inductive CategoryDetailResp where
  | notFound
  | redirectIndex
  | page (category : Category) (styles : List Style) (products : List Product)
deriving DecidableEq, Repr

/-- `category_detail` (lines 253–270). -/
def category_detail (db : Db) (is_admin : Bool) (category_id : Nat) :
    CategoryDetailResp :=
  if get_flag db.site_settings "public_shopfront" true = false ∧ is_admin = false then
    .notFound
  else
    match db.categories.find? (fun c => c.id == category_id) with
    | none => .redirectIndex
    | some c =>
      .page c (db.styles.filter (fun s => s.category_id == c.id))
        (orderByIdDesc Product.id
          (db.products.filter (fun p => p.category_id == some category_id)))

/-- Response of `GET /style/<id>` (lines 273–285). -/
inductive StyleDetailResp where
  | notFound
  | redirectIndex
  | page (style : Style) (products : List Product)
deriving DecidableEq, Repr

/-- `style_detail` (lines 273–285): gated by the same `public_shopfront`
flag as the home page. -/
def style_detail (db : Db) (is_admin : Bool) (style_id : Nat) :
    StyleDetailResp :=
  if get_flag db.site_settings "public_shopfront" true = false ∧ is_admin = false then
    .notFound
  else
    match db.styles.find? (fun s => s.id == style_id) with
    | none => .redirectIndex
    | some s =>
      .page s (orderByIdDesc Product.id
        (db.products.filter (fun p => p.style_id == some style_id)))

/-- Response of `GET /product/<id>` (lines 288–297). -/
inductive ProductDetailResp where
  | notFound
  | redirectIndex
  | page (product : Product)
deriving DecidableEq, Repr

/-- `product_detail` (lines 288–297): gated by the same `public_shopfront`
flag as the home page. -/
def product_detail (db : Db) (is_admin : Bool) (product_id : Nat) :
    ProductDetailResp :=
  if get_flag db.site_settings "public_shopfront" true = false ∧ is_admin = false then
    .notFound
  else
    match db.products.find? (fun p => p.id == product_id) with
    | none => .redirectIndex
    | some p => .page p

/-- Response of the fabric listing pages (lines 300–320). -/
inductive FabricsResp where
  | notFound
  | page (fabrics : List Fabric)
deriving DecidableEq, Repr

/-- `fabrics_choose` (lines 300–306). -/
def fabrics_choose (db : Db) (is_admin : Bool) : FabricsResp :=
  if get_flag db.site_settings "public_fabrics_choose" true = false ∧
      is_admin = false then .notFound
  else .page (orderByIdDesc Fabric.id db.fabrics)

/-- `fabrics_clearance` (lines 309–320). -/
def fabrics_clearance (db : Db) (is_admin : Bool) : FabricsResp :=
  if get_flag db.site_settings "public_fabrics_clearance" true = false ∧
      is_admin = false then .notFound
  else .page (orderByIdDesc Fabric.id (db.fabrics.filter (fun f => f.is_clearance)))

/-! ## Admin handlers -/

/-- Outcome of an admin mutation handler (which flash/redirect it took). -/
inductive AdminOutcome where
  | redirectLogin
  | duplicateName
  | created
  | updated
  | deleted
  | notFound
  | noopRedirect
deriving DecidableEq, Repr

/-- The `save_image(image) if image and image.filename else …` pattern
shared by the handlers. -/
def maybeSaveImage (image : Option FileStorage) (uploads : List String) :
    Option String × List String :=
  match image with
  | some im => if im.filename ≠ "" then save_image (some im) uploads else (none, uploads)
  | none => (none, uploads)

/-- `admin_category_new` (lines 410–429).  The image is saved before the
duplicate-name check, exactly as in the source; a `None` from `save_image`
is stored as the empty string.  `newId` is the next auto-increment key. -/
def admin_category_new (db : Db) (uploads : List String) (is_admin : Bool)
    (name description : String) (image : Option FileStorage) (newId : Nat) :
    Db × List String × AdminOutcome :=
  if is_admin = false then (db, uploads, .redirectLogin)
  else
    let nm := pyStrip name
    let sv := maybeSaveImage image uploads
    if (db.categories.find? (fun c => c.name == nm)).isSome then
      (db, sv.2, .duplicateName)
    else
      ({ db with categories := db.categories ++
          [{ id := newId, name := nm, description := pyStrip description,
             image_filename := sv.1.getD "" }] }, sv.2, .created)

/-- `admin_category_edit` (lines 432–472).  The session object's
`description` (and possibly `image_filename`) is assigned before the
duplicate-name check; on the duplicate branch the handler flashes and
redirects without committing and without rolling back, so the database is
unchanged in that request but the mutated Category object stays pending on
the shared scoped session — it is returned as the `Option Category`
component (`none` when the request committed or touched nothing).  The
`name` is only assigned after the check, so the stored names are never
touched on the duplicate branch.  The `IntegrityError` branch is
unreachable in this sequential model because the explicit pre-check
already rules the duplicate out. -/
def admin_category_edit (db : Db) (uploads : List String) (is_admin : Bool)
    (category_id : Nat) (name description : String)
    (image : Option FileStorage) :
    Db × Option Category × List String × AdminOutcome :=
  if is_admin = false then (db, none, uploads, .redirectLogin)
  else
    match db.categories.find? (fun c => c.id == category_id) with
    | none => (db, none, uploads, .notFound)
    | some c =>
      let new_name := pyStrip name
      let c1 := { c with description := pyStrip description }
      let sv := maybeSaveImage image uploads
      let c2 := match sv.1 with
        | some fn => { c1 with image_filename := fn }
        | none => c1
      if new_name ≠ "" ∧ new_name ≠ c.name ∧
          (db.categories.find? (fun o => o.name == new_name && o.id != c.id)).isSome then
        (db, some c2, sv.2, .duplicateName)
      else
        let c3 := { c2 with name := pyOrStr new_name c.name }
        ({ db with categories :=
            db.categories.map (fun o => if o.id == c.id then c3 else o) },
         none, sv.2, .updated)

/-- The Category object left pending on the scoped session by a rejected
edit: the found row with the submitted description (and the saved image
filename, when an image upload succeeded) already applied, the name
untouched. -/
def pendingOf (c : Category) (description : String)
    (image : Option FileStorage) (uploads : List String) : Category :=
  match (maybeSaveImage image uploads).1 with
  | some fn => { c with description := pyStrip description, image_filename := fn }
  | none => { c with description := pyStrip description }

/-- A later `db.commit()` on the shared scoped session: flushes a Category
object left pending by a rejected edit back onto its row (the session is
never removed, so such objects survive the request). -/
def category_session_commit (db : Db) (pending : Option Category) : Db :=
  match pending with
  | none => db
  | some c =>
    { db with categories := db.categories.map (fun o => if o.id == c.id then c else o) }

/-- `admin_category_delete` (lines 475–485), with the declared relationship
semantics of the ORM: `cascade="all, delete-orphan"` on `Category.styles`
deletes the owned `Style` rows; `Category.products` and `Style.products`
declare no delete cascade, so the foreign keys of the affected products
are set to NULL. -/
def admin_category_delete (db : Db) (is_admin : Bool) (category_id : Nat) :
    Db × AdminOutcome :=
  if is_admin = false then (db, .redirectLogin)
  else
    match db.categories.find? (fun c => c.id == category_id) with
    | none => (db, .noopRedirect)
    | some _ =>
      let delStyleIds :=
        (db.styles.filter (fun s => s.category_id == category_id)).map (fun s => s.id)
      ({ db with
          categories := db.categories.filter (fun c => c.id != category_id),
          styles := db.styles.filter (fun s => s.category_id != category_id),
          products := db.products.map (fun p =>
            { p with
                category_id :=
                  if p.category_id == some category_id then none else p.category_id,
                style_id :=
                  match p.style_id with
                  | some sid => if delStyleIds.contains sid then none else some sid
                  | none => none }) }, .deleted)

/-! ## Product price writes (`app.py` lines 594–667) -/

/-- The price stored by `admin_product_new` (line 611):
`price_cents = parse_price_to_cents(request.form.get("price", "0").strip())`. -/
def admin_product_new_price (price_field : Option String) : Int :=
  parse_price_to_cents (pyStrip (price_field.getD "0"))

/-- The price stored by `admin_product_edit` (lines 647–648):
`p.price_cents = parse_price_to_cents(price_str) or p.price_cents`. -/
def admin_product_edit_price (old : Int) (price_field : Option String) : Int :=
  pyOrInt (parse_price_to_cents (pyStrip (price_field.getD "0"))) old

/-- The price stored by `admin_fabric_edit` (lines 830–832):
`f.price_cents = parse_price_to_cents(request.form.get("price", "0")) or f.price_cents`. -/
def admin_fabric_edit_price (old : Int) (price_field : Option String) : Int :=
  pyOrInt (parse_price_to_cents (price_field.getD "0")) old

/-! ## Variant edit (`app.py` lines 717–740)

The handler fetches the `Variant` through the scoped session and mutates
the identity-mapped object in place.  `VariantSession` keeps both the
committed row and that session object; `db.commit()` copies the object to
the row.  The application never calls `SessionLocal.remove()`, so the
session object and any pending (uncommitted) mutations survive the
request. -/

/-- Form fields of a variant edit submission (`None` = field absent). -/
structure VariantForm where
  sku : Option String := none
  stock : Option String := none
  attributes_json : Option String := none
deriving DecidableEq, Repr

/-- Outcome of `admin_variant_edit`. -/
inductive VariantEditOutcome where
  | redirectLogin
  | rejectedBadJson
  | serverError
  | updated
deriving DecidableEq, Repr

/-- The committed row and the scoped session's identity-mapped object for
the targeted `Variant`. -/
structure VariantSession where
  row : Variant
  obj : Variant
deriving DecidableEq, Repr

/-- `admin_variant_edit` (lines 717–740) on the session view of the found
Variant.  `v.sku` and `v.stock` are assigned before the
`json.loads(attributes_json)` validation; on a parse failure the handler
flashes and redirects without committing and without rolling back, so the
sku/stock mutations stay pending on the shared scoped session.
`int(...)` raising on a malformed stock field is the `serverError` case. -/
def admin_variant_edit (st : VariantSession) (is_admin : Bool)
    (form : VariantForm) : VariantSession × VariantEditOutcome :=
  if is_admin = false then (st, .redirectLogin)
  else
    let v1 := { st.obj with sku := pyStrip (form.sku.getD "") }
    match pyIntParse (pyOrStr (form.stock.getD "0") "0") with
    | none => ({ st with obj := v1 }, .serverError)
    | some n =>
      let v2 := { v1 with stock := n }
      let a := pyOrStr (form.attributes_json.getD "\x7b\x7d") "\x7b\x7d"
      if json_loads_ok a then
        let v3 := { v2 with attributes_json := a }
        ({ row := v3, obj := v3 }, .updated)
      else
        ({ st with obj := v2 }, .rejectedBadJson)

/-- A later `db.commit()` on the shared scoped session (issued by any
subsequent handler on the same thread, e.g. `set_flag`): flushes pending
mutations of identity-mapped objects to their rows. -/
def scoped_session_commit (st : VariantSession) : VariantSession :=
  { st with row := st.obj }

/-! ## Fabric handlers (`app.py` lines 770–887) -/

/-- Form fields of the fabric create/edit pages.  `is_clearance` is the
Python truthiness of the checkbox field (`bool(request.form.get(...))`). -/
structure FabricForm where
  name : Option String := none
  origin : Option String := none
  size : Option String := none
  description : Option String := none
  price : Option String := none
  is_clearance : Bool := false
  clearance_price : Option String := none
  image : Option FileStorage := none
  ref_images : List FileStorage := []
deriving DecidableEq, Repr

/-- One step of the reference-image loop of `admin_fabric_new` /
`admin_fabric_edit`: save the file, and add a `FabricRef` row only when
the save succeeded (failed validations are skipped silently). -/
def fabricRefStep (fabric_id : Nat) (acc : List FabricRef × List String × Nat)
    (fsg : FileStorage) : List FabricRef × List String × Nat :=
  if fsg.filename ≠ "" then
    match save_image (some fsg) acc.2.1 with
    | (some saved, ups) =>
      (acc.1 ++ [{ id := acc.2.2, fabric_id := fabric_id, filename := saved }],
       ups, acc.2.2 + 1)
    | (none, ups) => (acc.1, ups, acc.2.2)
  else acc

/-- `admin_fabric_new` (lines 770–812).  `clearance_price_cents` is parsed
only when the stripped text is non-empty, else it is NULL.  `newFabricId`
and `newRefIdsFrom` are the next auto-increment keys. -/
def admin_fabric_new (db : Db) (uploads : List String) (is_admin : Bool)
    (form : FabricForm) (newFabricId newRefIdsFrom : Nat) :
    Db × List String × AdminOutcome :=
  if is_admin = false then (db, uploads, .redirectLogin)
  else
    let cp_text := pyStrip (form.clearance_price.getD "")
    let cpc := if cp_text ≠ "" then some (parse_price_to_cents cp_text) else none
    let sv := maybeSaveImage form.image uploads
    let f : Fabric := {
      id := newFabricId,
      name := pyStrip (form.name.getD ""),
      origin := pyStrip (form.origin.getD ""),
      size := pyStrip (form.size.getD ""),
      description := pyStrip (form.description.getD ""),
      price_cents := parse_price_to_cents (form.price.getD "0"),
      is_clearance := form.is_clearance,
      clearance_price_cents := cpc,
      image_filename := sv.1.getD "" }
    let refs := form.ref_images.foldl (fabricRefStep newFabricId) ([], sv.2, newRefIdsFrom)
    ({ db with fabrics := db.fabrics ++ [f],
               fabric_refs := db.fabric_refs ++ refs.1 }, refs.2.1, .created)

/-- `admin_fabric_delete` (lines 860–870).  `db.delete(f)` with the
`cascade="all, delete-orphan"` relationship removes the fabric's
`FabricRef` rows; the handler performs no file-system operation, so the
upload directory is returned untouched (contrast
`admin_fabric_ref_delete`). -/
def admin_fabric_delete (db : Db) (uploads : List String) (is_admin : Bool)
    (fabric_id : Nat) : Db × List String × AdminOutcome :=
  if is_admin = false then (db, uploads, .redirectLogin)
  else
    match db.fabrics.find? (fun f => f.id == fabric_id) with
    | none => (db, uploads, .noopRedirect)
    | some _ =>
      ({ db with
          fabrics := db.fabrics.filter (fun f => f.id != fabric_id),
          fabric_refs := db.fabric_refs.filter (fun r => r.fabric_id != fabric_id) },
       uploads, .deleted)

/-- `admin_fabric_ref_delete` (lines 873–887): deletes a single reference
row and best-effort removes its backing file (`os.remove` wrapped in
`try/except: pass`, modelled by `List.erase`, which is the identity when
the file is absent). -/
def admin_fabric_ref_delete (db : Db) (uploads : List String) (is_admin : Bool)
    (fabric_id ref_id : Nat) : Db × List String × AdminOutcome :=
  if is_admin = false then (db, uploads, .redirectLogin)
  else
    match db.fabric_refs.find? (fun r => r.id == ref_id) with
    | some ref =>
      if ref.fabric_id == fabric_id then
        ({ db with fabric_refs := db.fabric_refs.filter (fun r => r.id != ref_id) },
         uploads.erase ref.filename, .deleted)
      else (db, uploads, .noopRedirect)
    | none => (db, uploads, .noopRedirect)

/-! ## Concrete states used by the counterexamples below -/

/-- A database holding one Fabric (id 1) with two FabricRef rows whose
backing files `a.png` / `b.png` are present in the upload directory. -/
def exFabricDb : Db :=
  { fabrics := [{ id := 1, name := "linen" }],
    fabric_refs := [{ id := 1, fabric_id := 1, filename := "a.png" },
                    { id := 2, fabric_id := 1, filename := "b.png" }] }

/-- The stored Variant before the edit in the C2 counterexample. -/
def exVariant : Variant :=
  { id := 1, product_id := 1, sku := "A", stock := 1 }

/-- The edit submission of the C2 counterexample: new sku and stock with an
unparseable attributes text. -/
def exVariantForm : VariantForm :=
  { sku := some "B", stock := some "2", attributes_json := some "\x7b" }

/-- Two categories, one of which has the empty string as its (stored)
name; used by the C4 counterexample. -/
def exCategoryDb : Db :=
  { categories := [{ id := 1, name := "" }, { id := 2, name := "B" }] }

/-- One category with a style and a product, and a switched-off
`public_shopfront` flag (via `set_flag`); used by the C8 witness. -/
def exGatedDb : Db :=
  { categories := [{ id := 1, name := "bibs" }],
    styles := [{ id := 1, category_id := 1, name := "round" }],
    products := [{ id := 1, name := "bib-1", price_cents := 39000,
                   category_id := some 1, style_id := some 1 }],
    site_settings := set_flag [] "public_shopfront" false }

/-- A category owning one style, with a product referencing both; used by
the C3 witness. -/
def exCatDelDb : Db :=
  { categories := [{ id := 1, name := "bibs" }],
    styles := [{ id := 1, category_id := 1, name := "round" }],
    products := [{ id := 1, name := "bib-1", price_cents := 39000,
                   category_id := some 1, style_id := some 1 }] }

/-- Two categories with distinct non-empty names; used by the C4 witness. -/
def exDupDb : Db :=
  { categories := [{ id := 1, name := "A" }, { id := 2, name := "B" }] }

/-- The name stored by `save_image`, exposed for the statement of the C7
theorem (`save_image` on an accepted upload stores exactly this name). -/
def storedName (f : FileStorage) (uploads : List String) : String :=
  collide_loop (splitext (secure_filename f.filename)).1
    (splitext (secure_filename f.filename)).2 uploads
    (secure_filename f.filename) 1 (uploads.length + 1)

/-! # Theorems -/

/-! ## Flag store: claim C10 -/

/-- After `set_flag`, the key's row is found and holds the written bit. -/
theorem set_flag_find? (settings : List SiteSetting) (key : String)
    (v : Bool) :
    (set_flag settings key v).find? (fun s => s.key == key)
      = some ⟨key, if v then "1" else "0"⟩ := by
  induction settings with
  | nil =>
    simp [set_flag, List.find?]
  | cons s rest ih =>
    by_cases h : (s.key == key) = true
    · have hk : s.key = key := eq_of_beq h
      have hfind : List.find? (fun t => t.key == key) (s :: rest) = some s :=
        @List.find?_cons_of_pos _ (fun t => t.key == key) s rest h
      simp only [set_flag, hfind]
      rw [List.map_cons, if_pos h]
      simp [List.find?, hk]
    · have h2 : (s.key == key) = false := by simpa using h
      have hfind : List.find? (fun t => t.key == key) (s :: rest)
          = List.find? (fun t => t.key == key) rest :=
        @List.find?_cons_of_neg _ (fun t => t.key == key) s rest h
      cases hf : rest.find? (fun t => t.key == key) with
      | some t =>
        have ih2 := ih
        simp only [set_flag, hf] at ih2
        simp only [set_flag, hfind, hf]
        rw [List.map_cons, if_neg h]
        simp only [List.find?, h2]
        exact ih2
      | none =>
        have ih2 := ih
        simp only [set_flag, hf] at ih2
        simp only [set_flag, hfind, hf]
        rw [List.cons_append]
        simp only [List.find?, h2]
        exact ih2

/-- Reading a flag right after writing it returns the written value. -/
theorem get_flag_set_flag (settings : List SiteSetting) (key : String)
    (v dflt : Bool) : get_flag (set_flag settings key v) key dflt = v := by
  unfold get_flag
  rw [set_flag_find? settings key v]
  cases v <;> rfl

/-- C10: for every string key and boolean value, `get(key, default)` after
`set(key, value)` returns `value` (both for `true` and `false`), and
reading a key that was never persisted returns the caller-supplied
default. -/
theorem C10_flag_roundtrip (settings : List SiteSetting) (key : String)
    (v dflt : Bool) :
    get_flag (set_flag settings key v) key dflt = v ∧
    (settings.find? (fun s => s.key == key) = none →
      get_flag settings key dflt = dflt) := by
  refine ⟨get_flag_set_flag settings key v dflt, fun h => ?_⟩
  simp [get_flag, h]

/-- Witness for C10 at a concrete key and store. -/
theorem C10_flag_roundtrip_witness :
    get_flag (set_flag [] "public_shopfront" true) "public_shopfront" false
      = true ∧
    get_flag ([] : List SiteSetting) "public_shopfront" false = false := by
  have h := C10_flag_roundtrip [] "public_shopfront" true false
  exact ⟨h.1, h.2 (by decide)⟩

/-! ## Price parsing: claims C5 and C6 -/

/-- C5: for every product price input string whose `float(...)` parse
fails, the request is not rejected: the price stored by the create handler
is `0` and the price stored by the edit handler is the previous value.
The hypothesis states exactly that `float((text or "0").strip())` raises
on the string the handlers pass to `parse_price_to_cents` (the stripped
form field). -/
theorem C5_unparsable_price_defaults_zero (text : String) (old : Int)
    (h : pyFloatParse (pyStrip (pyOrStr (pyStrip text) "0")) = none) :
    admin_product_new_price (some text) = 0 ∧
    admin_product_edit_price old (some text) = old := by
  unfold admin_product_new_price admin_product_edit_price parse_price_to_cents
  simp [Option.getD, h, pyOrInt]

/-- Witness for C5: the unparsable inputs `"abc"` and `"_1"` (CPython's
`float` rejects a leading underscore in a digit group). -/
theorem C5_unparsable_price_defaults_zero_witness :
    pyFloatParse (pyStrip (pyOrStr (pyStrip "abc") "0")) = none ∧
    admin_product_new_price (some "abc") = 0 ∧
    admin_product_edit_price 39000 (some "abc") = 39000 ∧
    pyFloatParse (pyStrip (pyOrStr (pyStrip "_1") "0")) = none ∧
    admin_product_new_price (some "_1") = 0 ∧
    admin_product_edit_price 39000 (some "_1") = 39000 := by
  have h : pyFloatParse (pyStrip (pyOrStr (pyStrip "abc") "0")) = none := by
    decide
  have hu : pyFloatParse (pyStrip (pyOrStr (pyStrip "_1") "0")) = none := by
    decide
  have h2 := C5_unparsable_price_defaults_zero "abc" 39000 h
  have h3 := C5_unparsable_price_defaults_zero "_1" 39000 hu
  exact ⟨h, h2.1, h2.2, hu, h3.1, h3.2⟩

/-- C6 (implicit behavior): a well-formed price that parses to exactly
zero cents leaves the stored price unchanged on edit (both the product and
the fabric edit handlers use `parse_price_to_cents(...) or old`), and a
non-zero price can never be edited to zero. -/
theorem C6_zero_price_edit_unchanged (old : Int) (text : String) :
    (parse_price_to_cents (pyStrip text) = 0 →
      admin_product_edit_price old (some text) = old) ∧
    (parse_price_to_cents text = 0 →
      admin_fabric_edit_price old (some text) = old) ∧
    (old ≠ 0 → admin_product_edit_price old (some text) ≠ 0 ∧
      admin_fabric_edit_price old (some text) ≠ 0) := by
  unfold admin_product_edit_price admin_fabric_edit_price pyOrInt
  simp only [Option.getD]
  refine ⟨fun h => by rw [h]; simp, fun h => by rw [h]; simp, fun h => ⟨?_, ?_⟩⟩
  · by_cases h2 : parse_price_to_cents (pyStrip text) = 0 <;> simp [h2, h]
  · by_cases h2 : parse_price_to_cents text = 0 <;> simp [h2, h]

/-- Witness for C6: editing a 39000-cent price with `"0"` / `"0.00"`
keeps 39000. -/
theorem C6_zero_price_edit_unchanged_witness :
    admin_product_edit_price 39000 (some "0.00") = 39000 ∧
    admin_fabric_edit_price 39000 (some "0") = 39000 ∧
    admin_product_edit_price 39000 (some "0") ≠ 0 := by
  refine ⟨(C6_zero_price_edit_unchanged 39000 "0.00").1 (by decide),
    (C6_zero_price_edit_unchanged 39000 "0").2.1 (by decide),
    ((C6_zero_price_edit_unchanged 39000 "0").2.2 (by decide)).1⟩

/-! ## Clearance price: claim C9 -/

/-- C9: a Fabric created with the clearance checkbox unset and an empty
clearance-price input stores a NULL clearance price, and its
`clearance_price_display` is `None`, not `"0.00"`. -/
theorem C9_clearance_price_null (db : Db) (uploads : List String)
    (form : FabricForm) (newFabricId newRefIdsFrom : Nat)
    (hclear : form.is_clearance = false)
    (hcp : pyStrip (form.clearance_price.getD "") = "") :
    ∃ f : Fabric,
      (admin_fabric_new db uploads true form newFabricId newRefIdsFrom).1.fabrics
        = db.fabrics ++ [f] ∧
      f.is_clearance = false ∧
      f.clearance_price_cents = none ∧
      f.clearance_price_display = none := by
  unfold admin_fabric_new
  rw [hcp]
  simp only [if_neg (by simp : ¬(true = false)), ne_eq, not_true_eq_false,
    if_false, ite_false]
  exact ⟨_, rfl, hclear, rfl, rfl⟩

/-- Witness for C9 on a concrete empty form. -/
theorem C9_clearance_price_null_witness :
    ∃ f : Fabric,
      (admin_fabric_new {} [] true {} 1 1).1.fabrics = [] ++ [f] ∧
      f.is_clearance = false ∧
      f.clearance_price_cents = none ∧
      f.clearance_price_display = none :=
  C9_clearance_price_null {} [] {} 1 1 (by decide) (by decide)

/-! ## Flag-gated public pages: claim C8 -/

/-- C8: with `public_shopfront` off, a visitor gets the maintenance page
on `/` and a 404 on every deep-linked page gated by it (category, style
and product detail), while a logged-in admin still receives the normal
content on each; likewise for the two fabric pages and their flags. -/
theorem C8_gated_pages (db : Db) (cid sid pid : Nat) (c : Category)
    (s : Style) (p : Product)
    (hflag : get_flag db.site_settings "public_shopfront" true = false)
    (hc : db.categories.find? (fun t => t.id == cid) = some c)
    (hs : db.styles.find? (fun t => t.id == sid) = some s)
    (hp : db.products.find? (fun t => t.id == pid) = some p) :
    index db false = .siteClosed ∧
    category_detail db false cid = .notFound ∧
    style_detail db false sid = .notFound ∧
    product_detail db false pid = .notFound ∧
    index db true = .listing (orderByIdDesc Category.id db.categories)
      db.fabrics.length (db.fabrics.filter (fun f => f.is_clearance)).length ∧
    category_detail db true cid =
      .page c (db.styles.filter (fun t => t.category_id == c.id))
        (orderByIdDesc Product.id
          (db.products.filter (fun q => q.category_id == some cid))) ∧
    style_detail db true sid =
      .page s (orderByIdDesc Product.id
        (db.products.filter (fun q => q.style_id == some sid))) ∧
    product_detail db true pid = .page p ∧
    (get_flag db.site_settings "public_fabrics_choose" true = false →
      fabrics_choose db false = .notFound) ∧
    fabrics_choose db true = .page (orderByIdDesc Fabric.id db.fabrics) ∧
    (get_flag db.site_settings "public_fabrics_clearance" true = false →
      fabrics_clearance db false = .notFound) ∧
    fabrics_clearance db true =
      .page (orderByIdDesc Fabric.id (db.fabrics.filter (fun f => f.is_clearance))) := by
  refine ⟨?_, ?_, ?_, ?_, ?_, ?_, ?_, ?_, fun h => ?_, ?_, fun h => ?_, ?_⟩
  · simp [index, hflag]
  · simp [category_detail, hflag]
  · simp [style_detail, hflag]
  · simp [product_detail, hflag]
  · simp [index]
  · simp [category_detail, hc]
  · simp [style_detail, hs]
  · simp [product_detail, hp]
  · simp [fabrics_choose, h]
  · simp [fabrics_choose]
  · simp [fabrics_clearance, h]
  · simp [fabrics_clearance]

/-! ## Category deletion: claim C3 -/

/-- C3: deleting a Category removes all of its Styles but deletes no
Product; every product that referenced the category (or one of its
styles) remains persisted, with its category/style reference nulled and
its other fields untouched. -/
theorem C3_category_delete_orphans_products (db : Db) (cid : Nat)
    (h : (db.categories.find? (fun c => c.id == cid)).isSome = true) :
    (admin_category_delete db true cid).2 = .deleted ∧
    (∀ s ∈ (admin_category_delete db true cid).1.styles, s.category_id ≠ cid) ∧
    (admin_category_delete db true cid).1.products.length = db.products.length ∧
    (∀ p ∈ db.products, ∃ q ∈ (admin_category_delete db true cid).1.products,
      q.id = p.id ∧ q.name = p.name ∧ q.price_cents = p.price_cents ∧
      q.category_id ≠ some cid ∧
      (p.category_id = some cid → q.category_id = none) ∧
      (p.category_id ≠ some cid → q.category_id = p.category_id) ∧
      (∀ s ∈ db.styles, s.category_id = cid → p.style_id = some s.id →
        q.style_id = none)) := by
  obtain ⟨c, hc⟩ := Option.isSome_iff_exists.mp h
  simp only [admin_category_delete, hc, if_neg (by simp : ¬(true = false))]
  refine ⟨by trivial, fun s hs => ?_, List.length_map _ _, fun p hp => ?_⟩
  · have h2 := (List.mem_filter.mp hs).2
    simpa using h2
  · refine ⟨_, List.mem_map_of_mem _ hp, rfl, rfl, rfl, ?_, ?_, ?_, ?_⟩
    · by_cases hcat : (p.category_id == some cid) = true
      · simp [hcat]
      · simp only [hcat]
        simpa using hcat
    · intro h2
      have hcat : (p.category_id == some cid) = true := by simp [h2]
      simp [hcat]
    · intro h2
      have hcat : (p.category_id == some cid) = false := by simpa using h2
      simp [hcat]
    · intro s hs hsc hps
      have hmem : s.id ∈
          (db.styles.filter (fun t => t.category_id == cid)).map (fun t => t.id) :=
        List.mem_map_of_mem _ (List.mem_filter.mpr ⟨hs, by simp [hsc]⟩)
      simp [hps, List.contains, List.elem_iff, hmem]

/-- Witness for C3: deleting category 1 of `exCatDelDb` removes the style
and orphans (but keeps) the product. -/
theorem C3_category_delete_orphans_products_witness :
    (exCatDelDb.categories.find? (fun c => c.id == 1)).isSome = true ∧
    ((admin_category_delete exCatDelDb true 1).2 = .deleted ∧
     (∀ s ∈ (admin_category_delete exCatDelDb true 1).1.styles,
        s.category_id ≠ 1) ∧
     (admin_category_delete exCatDelDb true 1).1.products.length
        = exCatDelDb.products.length ∧
     (∀ p ∈ exCatDelDb.products,
       ∃ q ∈ (admin_category_delete exCatDelDb true 1).1.products,
         q.id = p.id ∧ q.name = p.name ∧ q.price_cents = p.price_cents ∧
         q.category_id ≠ some 1 ∧
         (p.category_id = some 1 → q.category_id = none) ∧
         (p.category_id ≠ some 1 → q.category_id = p.category_id) ∧
         (∀ s ∈ exCatDelDb.styles, s.category_id = 1 → p.style_id = some s.id →
           q.style_id = none))) :=
  ⟨by decide, C3_category_delete_orphans_products exCatDelDb 1 (by decide)⟩

/-! ## Image saving: claim C7

The collision loop tries the sanitized name and then `base_1.ext`,
`base_2.ext`, …; all these candidates are pairwise distinct (decimal
representations of distinct counters differ, and a suffixed name is
strictly longer than the unsuffixed one), so among the first
`uploads.length + 1` candidates at least one is not taken and the loop's
fuel never runs out. -/

/-- `digitsVal` over an appended digit. -/
theorem digitsVal_append (l : List Char) (c : Char) :
    digitsVal (l ++ [c]) = digitsVal l * 10 + (c.toNat - 48) := by
  simp [digitsVal, List.foldl_append]

/-- Value of `Nat.digitChar` on a single digit. -/
theorem digitChar_val : ∀ n : Nat, n < 10 → (Nat.digitChar n).toNat - 48 = n := by
  decide

/-- Round trip: reading back the digits of `n` yields `n`. -/
theorem natReprAux_digitsVal :
    ∀ (fuel n : Nat), n < fuel → digitsVal (natReprAux fuel n) = n := by
  intro fuel
  induction fuel with
  | zero => intro n h; exact absurd h (Nat.not_lt_zero n)
  | succ f ih =>
    intro n h
    by_cases h10 : n < 10
    · simp [natReprAux, h10, digitsVal, digitChar_val n h10]
    · have hn0 : 0 < n := by omega
      have hdiv : n / 10 < f := by
        have h1 : n / 10 < n := Nat.div_lt_self hn0 (by omega)
        omega
      simp only [natReprAux, if_neg h10]
      rw [digitsVal_append, ih (n / 10) hdiv,
        digitChar_val (n % 10) (Nat.mod_lt n (by omega))]
      omega

/-- Round trip for `natRepr`. -/
theorem natRepr_digitsVal (n : Nat) : digitsVal (natRepr n).data = n :=
  natReprAux_digitsVal (n + 1) n (Nat.lt_succ_self n)

/-- The decimal representation is injective. -/
theorem natRepr_injective (m n : Nat) (h : natRepr m = natRepr n) : m = n := by
  have h2 : digitsVal (natRepr m).data = digitsVal (natRepr n).data := by rw [h]
  rw [natRepr_digitsVal, natRepr_digitsVal] at h2
  exact h2

/-- String concatenation concatenates the character lists. -/
theorem string_data_append (a b : String) : (a ++ b).data = a.data ++ b.data :=
  rfl

/-- Characters of a suffixed candidate name. -/
theorem suffixName_data (b e : String) (i : Nat) :
    (suffixName b e i).data = b.data ++ ('_' :: ((natRepr i).data ++ e.data)) := by
  simp [suffixName, string_data_append]

/-- Distinct counters give distinct candidate names. -/
theorem suffixName_injective (b e : String) {i j : Nat}
    (h : suffixName b e i = suffixName b e j) : i = j := by
  have h2 : (suffixName b e i).data = (suffixName b e j).data := by rw [h]
  rw [suffixName_data, suffixName_data] at h2
  have h3 := List.append_cancel_left h2
  injection h3 with _ h4
  have h5 := List.append_cancel_right h4
  have h6 : digitsVal (natRepr i).data = digitsVal (natRepr j).data := by rw [h5]
  rw [natRepr_digitsVal, natRepr_digitsVal] at h6
  exact h6

/-- A suffixed name is strictly longer than the name it came from, hence
different from it. -/
theorem suffixName_ne_base (b e s : String) (hs : s.data = b.data ++ e.data)
    (k : Nat) : suffixName b e k ≠ s := by
  intro h
  have h2 : (suffixName b e k).data.length = s.data.length := by rw [h]
  rw [suffixName_data, hs] at h2
  simp [List.length_append] at h2
  omega

/-- `splitext` splits the input: the parts concatenate back to it. -/
theorem splitext_concat (s : String) :
    (splitext s).1.data ++ (splitext s).2.data = s.data := by
  simp only [splitext]
  split_ifs <;> simp [List.take_append_drop]

/-- The collision loop returns either its starting candidate or a suffixed
name with counter at least the starting counter. -/
theorem collide_loop_shape (b e : String) (fs : List String) :
    ∀ (fuel : Nat) (cand : String) (i : Nat),
      collide_loop b e fs cand i fuel = cand ∨
      ∃ k, i ≤ k ∧ collide_loop b e fs cand i fuel = suffixName b e k := by
  intro fuel
  induction fuel with
  | zero => intro cand i; left; rfl
  | succ f ih =>
    intro cand i
    by_cases hm : cand ∈ fs
    · rcases ih (suffixName b e i) (i + 1) with h | ⟨k, hk, h⟩
      · right
        exact ⟨i, le_rfl, by simp only [collide_loop, if_pos hm]; exact h⟩
      · right
        exact ⟨k, by omega, by simp only [collide_loop, if_pos hm]; exact h⟩
    · left
      simp only [collide_loop, if_neg hm]

/-- Erasing an entry that no remaining candidate equals does not change
the loop's behaviour. -/
theorem collide_loop_erase (b e : String) (fs : List String) (x : String) :
    ∀ (fuel : Nat) (cand : String) (i : Nat),
      cand ≠ x → (∀ k, i ≤ k → suffixName b e k ≠ x) →
      collide_loop b e fs cand i fuel
        = collide_loop b e (fs.erase x) cand i fuel := by
  intro fuel
  induction fuel with
  | zero => intro cand i _ _; rfl
  | succ f ih =>
    intro cand i hcx hkx
    have hmem : cand ∈ fs.erase x ↔ cand ∈ fs := List.mem_erase_of_ne hcx
    by_cases hm : cand ∈ fs
    · have hm2 : cand ∈ fs.erase x := hmem.mpr hm
      simp only [collide_loop, if_pos hm, if_pos hm2]
      exact ih (suffixName b e i) (i + 1) (hkx i le_rfl)
        (fun k hk => hkx k (by omega))
    · have hm2 : cand ∉ fs.erase x := fun h2 => hm (hmem.mp h2)
      simp only [collide_loop, if_neg hm, if_neg hm2]

/-- With more fuel than the directory has entries, and a starting
candidate that no later candidate repeats, the loop's result is not a
taken name: `save_image` never overwrites. -/
theorem collide_loop_free (b e : String) :
    ∀ (fuel : Nat) (fs : List String) (cand : String) (i : Nat),
      fs.length < fuel → (∀ k, i ≤ k → cand ≠ suffixName b e k) →
      collide_loop b e fs cand i fuel ∉ fs := by
  intro fuel
  induction fuel with
  | zero => intro fs cand i h _; exact absurd h (Nat.not_lt_zero _)
  | succ f ih =>
    intro fs cand i hlen hcand
    by_cases hm : cand ∈ fs
    · have hcx : suffixName b e i ≠ cand := (hcand i le_rfl).symm
      have hkx : ∀ k, i + 1 ≤ k → suffixName b e k ≠ cand :=
        fun k hk => (hcand k (by omega)).symm
      simp only [collide_loop, if_pos hm]
      rw [collide_loop_erase b e fs cand f (suffixName b e i) (i + 1) hcx hkx]
      have hlen2 : (fs.erase cand).length < f := by
        rw [List.length_erase_of_mem hm]
        have h1 : 0 < fs.length := List.length_pos_of_mem hm
        omega
      have hcand2 : ∀ k, i + 1 ≤ k → suffixName b e i ≠ suffixName b e k := by
        intro k hk heq
        have h2 := suffixName_injective b e heq
        omega
      have hres := ih (fs.erase cand) (suffixName b e i) (i + 1) hlen2 hcand2
      intro hin
      apply hres
      have hnec : collide_loop b e (fs.erase cand) (suffixName b e i) (i + 1) f
          ≠ cand := by
        rcases collide_loop_shape b e (fs.erase cand) f (suffixName b e i) (i + 1)
          with h1 | ⟨k, hk, h1⟩
        · rw [h1]; exact hcx
        · rw [h1]; exact (hcand k (by omega)).symm
      exact (List.mem_erase_of_ne hnec).mpr hin
    · simp only [collide_loop, if_neg hm]
      exact hm

/-- The stored name is fresh and is either the sanitized name or a
suffixed variant of it. -/
theorem storedName_spec (f : FileStorage) (ups : List String) :
    storedName f ups ∉ ups ∧
    (storedName f ups = secure_filename f.filename ∨
      ∃ k, 1 ≤ k ∧ storedName f ups
        = suffixName (splitext (secure_filename f.filename)).1
            (splitext (secure_filename f.filename)).2 k) := by
  have hbase : (secure_filename f.filename).data
      = (splitext (secure_filename f.filename)).1.data
        ++ (splitext (secure_filename f.filename)).2.data :=
    (splitext_concat _).symm
  constructor
  · exact collide_loop_free _ _ (ups.length + 1) ups _ 1 (by omega)
      (fun k _ he =>
        suffixName_ne_base _ _ (secure_filename f.filename) hbase k he.symm)
  · exact collide_loop_shape _ _ ups (ups.length + 1) _ 1

/-- On an accepted upload, `save_image` returns the fresh name and appends
exactly it to the directory listing. -/
theorem save_image_accepted (f : FileStorage) (ups : List String)
    (hname : f.filename ≠ "") (hall : allowed_file f.filename = true) :
    save_image (some f) ups
      = (some (storedName f ups), ups ++ [storedName f ups]) := by
  simp only [save_image, if_pos (And.intro hname hall)]
  rfl

/-- C7: an accepted upload is stored under the sanitized filename or,
when taken, under `base_k.ext` for some `k ≥ 1`; the stored name is never
one that already exists (no overwrite), the returned value is exactly the
name added to the upload directory, and a second upload of the same
original filename is stored under a different name with both files
present. -/
theorem C7_save_image_collision_suffix (f : FileStorage) (uploads : List String)
    (hname : f.filename ≠ "") (hall : allowed_file f.filename = true) :
    ∃ stored : String,
      save_image (some f) uploads = (some stored, uploads ++ [stored]) ∧
      stored ∉ uploads ∧
      (stored = secure_filename f.filename ∨
        ∃ k, 1 ≤ k ∧ stored = (splitext (secure_filename f.filename)).1 ++ "_"
          ++ natRepr k ++ (splitext (secure_filename f.filename)).2) ∧
      (∀ stored2 uploads2,
        save_image (some f) (uploads ++ [stored]) = (some stored2, uploads2) →
        stored2 ≠ stored ∧ stored ∈ uploads2 ∧ stored2 ∈ uploads2) := by
  refine ⟨storedName f uploads, save_image_accepted f uploads hname hall,
    (storedName_spec f uploads).1, ?_, ?_⟩
  · rcases (storedName_spec f uploads).2 with h | ⟨k, hk, h⟩
    · left; exact h
    · right; exact ⟨k, hk, by simpa [suffixName] using h⟩
  · intro stored2 uploads2 heq
    rw [save_image_accepted f (uploads ++ [storedName f uploads]) hname hall]
      at heq
    have hs2 : storedName f (uploads ++ [storedName f uploads]) = stored2 := by
      have h1 := congrArg Prod.fst heq
      simpa using h1
    have hu2 : (uploads ++ [storedName f uploads])
        ++ [storedName f (uploads ++ [storedName f uploads])] = uploads2 := by
      have h1 := congrArg Prod.snd heq
      simpa using h1
    have hnot := (storedName_spec f (uploads ++ [storedName f uploads])).1
    refine ⟨?_, ?_, ?_⟩
    · rw [← hs2]
      intro hc
      exact hnot (by rw [hc]; simp)
    · rw [← hu2]; simp
    · rw [← hu2, ← hs2]; simp

/-- Witness for C7: uploading `a.png` when `a.png` is already stored; the
concrete result is `a_1.png`. -/
theorem C7_save_image_collision_suffix_witness :
    (FileStorage.mk "a.png").filename ≠ "" ∧
    allowed_file (FileStorage.mk "a.png").filename = true ∧
    (∃ stored : String,
      save_image (some (FileStorage.mk "a.png")) ["a.png"]
        = (some stored, ["a.png"] ++ [stored]) ∧
      stored ∉ ["a.png"] ∧
      (stored = secure_filename (FileStorage.mk "a.png").filename ∨
        ∃ k, 1 ≤ k ∧ stored
          = (splitext (secure_filename (FileStorage.mk "a.png").filename)).1
            ++ "_" ++ natRepr k
            ++ (splitext (secure_filename (FileStorage.mk "a.png").filename)).2) ∧
      (∀ stored2 uploads2,
        save_image (some (FileStorage.mk "a.png")) (["a.png"] ++ [stored])
          = (some stored2, uploads2) →
        stored2 ≠ stored ∧ stored ∈ uploads2 ∧ stored2 ∈ uploads2)) ∧
    save_image (some (FileStorage.mk "a.png")) ["a.png"]
      = (some "a_1.png", ["a.png", "a_1.png"]) :=
  ⟨by decide, by decide,
    C7_save_image_collision_suffix (FileStorage.mk "a.png") ["a.png"]
      (by decide) (by decide), by decide⟩

/-! ## Fabric deletion: claim C1 -/

/-- Counterexample to C1 as stated: deleting Fabric 1 of `exFabricDb`
(two FabricRef rows whose backing files are both present in the upload
directory) removes both rows, but the upload directory is returned
untouched — `admin_fabric_delete` performs no file removal at all, so the
claimed best-effort removal of the backing image files never happens. -/
theorem C1_fabric_delete_keeps_files_counterexample :
    (admin_fabric_delete exFabricDb ["a.png", "b.png"] true 1).1.fabric_refs
      = [] ∧
    (admin_fabric_delete exFabricDb ["a.png", "b.png"] true 1).2.1
      = ["a.png", "b.png"] ∧
    "a.png" ∈ (admin_fabric_delete exFabricDb ["a.png", "b.png"] true 1).2.1 ∧
    "b.png" ∈ (admin_fabric_delete exFabricDb ["a.png", "b.png"] true 1).2.1 := by
  decide

/-- C1 as amended: deleting a Fabric removes all of its FabricRef rows
from the database (other rows are kept) but does not remove, or attempt to
remove, any backing image file from the upload directory; deleting the
same Fabric a second time is a no-op that does not crash. -/
theorem C1_fabric_delete_amended (db : Db) (uploads : List String) (fid : Nat)
    (h : (db.fabrics.find? (fun f => f.id == fid)).isSome = true) :
    (admin_fabric_delete db uploads true fid).2.2 = .deleted ∧
    (∀ r ∈ (admin_fabric_delete db uploads true fid).1.fabric_refs,
      r.fabric_id ≠ fid) ∧
    (∀ r ∈ db.fabric_refs, r.fabric_id ≠ fid →
      r ∈ (admin_fabric_delete db uploads true fid).1.fabric_refs) ∧
    (admin_fabric_delete db uploads true fid).2.1 = uploads ∧
    admin_fabric_delete (admin_fabric_delete db uploads true fid).1 uploads true fid
      = ((admin_fabric_delete db uploads true fid).1, uploads, .noopRedirect) := by
  obtain ⟨f, hf⟩ := Option.isSome_iff_exists.mp h
  simp only [admin_fabric_delete, hf, if_neg (by simp : ¬(true = false))]
  refine ⟨by trivial, fun r hr => ?_, fun r hr hne => ?_, by trivial, ?_⟩
  · have h2 := (List.mem_filter.mp hr).2
    simpa using h2
  · exact List.mem_filter.mpr ⟨hr, by simpa using hne⟩
  · have hnone : (db.fabrics.filter (fun t => t.id != fid)).find?
        (fun t => t.id == fid) = none := by
      refine List.find?_eq_none.mpr (fun x hx => ?_)
      have h2 := (List.mem_filter.mp hx).2
      simpa using h2
    simp [hnone]

/-- Witness for C1 (amended) at `exFabricDb`. -/
theorem C1_fabric_delete_amended_witness :
    (exFabricDb.fabrics.find? (fun f => f.id == 1)).isSome = true ∧
    ((admin_fabric_delete exFabricDb ["a.png"] true 1).2.2 = .deleted ∧
     (∀ r ∈ (admin_fabric_delete exFabricDb ["a.png"] true 1).1.fabric_refs,
        r.fabric_id ≠ 1) ∧
     (∀ r ∈ exFabricDb.fabric_refs, r.fabric_id ≠ 1 →
        r ∈ (admin_fabric_delete exFabricDb ["a.png"] true 1).1.fabric_refs) ∧
     (admin_fabric_delete exFabricDb ["a.png"] true 1).2.1 = ["a.png"] ∧
     admin_fabric_delete (admin_fabric_delete exFabricDb ["a.png"] true 1).1
        ["a.png"] true 1
       = ((admin_fabric_delete exFabricDb ["a.png"] true 1).1, ["a.png"],
          .noopRedirect)) :=
  ⟨by decide, C1_fabric_delete_amended exFabricDb ["a.png"] 1 (by decide)⟩

/-! ## Variant edit: claim C2 -/

/-- Counterexample to C2 as stated: the edit of `exVariant` (sku "A",
stock 1) submitting sku "B", stock "2" and the unparseable attributes text
`"{"` is rejected, and the stored attributes are retained — but the
session-held Variant object has already been given the new sku and stock
(the handler assigns them before validating and never rolls back), and the
shared scoped session's next commit flushes them to the row, so the prior
sku/stock are not retained. -/
theorem C2_variant_edit_leaks_counterexample :
    (admin_variant_edit ⟨exVariant, exVariant⟩ true exVariantForm).2
      = .rejectedBadJson ∧
    (admin_variant_edit ⟨exVariant, exVariant⟩ true exVariantForm).1.obj.sku
      = "B" ∧
    (admin_variant_edit ⟨exVariant, exVariant⟩ true exVariantForm).1.obj.stock
      = 2 ∧
    (admin_variant_edit ⟨exVariant, exVariant⟩ true exVariantForm).1.obj.attributes_json
      = exVariant.attributes_json ∧
    (scoped_session_commit
        (admin_variant_edit ⟨exVariant, exVariant⟩ true exVariantForm).1).row.sku
      ≠ exVariant.sku ∧
    (scoped_session_commit
        (admin_variant_edit ⟨exVariant, exVariant⟩ true exVariantForm).1).row.stock
      ≠ exVariant.stock := by
  decide

/-- C2 as amended: for every Variant edit submission whose attributes text
is not parseable JSON (and whose stock field parses, so `int(...)` does
not raise first), the write is rejected with no commit in that request and
the prior stored attributes value is retained; but the submission's sku
and stock have already been assigned to the session-held Variant object
and are not rolled back, so they are flushed to the stored row at the
shared scoped session's next commit. -/
theorem C2_variant_edit_amended (st : VariantSession) (form : VariantForm)
    (n : Int)
    (hstock : pyIntParse (pyOrStr (form.stock.getD "0") "0") = some n)
    (hbad : json_loads_ok
      (pyOrStr (form.attributes_json.getD "\x7b\x7d") "\x7b\x7d") = false) :
    (admin_variant_edit st true form).2 = .rejectedBadJson ∧
    (admin_variant_edit st true form).1.row = st.row ∧
    (admin_variant_edit st true form).1.obj.attributes_json
      = st.obj.attributes_json ∧
    (admin_variant_edit st true form).1.obj.sku = pyStrip (form.sku.getD "") ∧
    (admin_variant_edit st true form).1.obj.stock = n ∧
    (scoped_session_commit (admin_variant_edit st true form).1).row.sku
      = pyStrip (form.sku.getD "") ∧
    (scoped_session_commit (admin_variant_edit st true form).1).row.stock
      = n := by
  simp [admin_variant_edit, hstock, hbad, scoped_session_commit]

/-- Witness for C2 (amended) at a concrete session and submission. -/
theorem C2_variant_edit_amended_witness :
    pyIntParse (pyOrStr (((⟨some "Y", some "7", some "not json"⟩ :
        VariantForm)).stock.getD "0") "0") = some 7 ∧
    ((admin_variant_edit ⟨exVariant, exVariant⟩ true
        ⟨some "Y", some "7", some "not json"⟩).2 = .rejectedBadJson ∧
     (admin_variant_edit ⟨exVariant, exVariant⟩ true
        ⟨some "Y", some "7", some "not json"⟩).1.row = exVariant ∧
     (admin_variant_edit ⟨exVariant, exVariant⟩ true
        ⟨some "Y", some "7", some "not json"⟩).1.obj.attributes_json
       = exVariant.attributes_json ∧
     (admin_variant_edit ⟨exVariant, exVariant⟩ true
        ⟨some "Y", some "7", some "not json"⟩).1.obj.sku
       = pyStrip ((some "Y").getD "") ∧
     (admin_variant_edit ⟨exVariant, exVariant⟩ true
        ⟨some "Y", some "7", some "not json"⟩).1.obj.stock = 7 ∧
     (scoped_session_commit (admin_variant_edit ⟨exVariant, exVariant⟩ true
        ⟨some "Y", some "7", some "not json"⟩).1).row.sku
       = pyStrip ((some "Y").getD "") ∧
     (scoped_session_commit (admin_variant_edit ⟨exVariant, exVariant⟩ true
        ⟨some "Y", some "7", some "not json"⟩).1).row.stock = 7) :=
  ⟨by decide, C2_variant_edit_amended ⟨exVariant, exVariant⟩
    ⟨some "Y", some "7", some "not json"⟩ 7 (by decide) (by decide)⟩

/-! ## Duplicate category names: claim C4 -/

/-- Counterexample to C4 as stated: `exCategoryDb` holds a category whose
stored name is the empty string; submitting a rename of category 2 to that
same (empty) name does not produce a duplicate-name notice — the handler
treats a falsy submitted name as "keep the current name" and reports a
successful update, leaving the database unchanged. -/
theorem C4_duplicate_name_empty_rename_counterexample :
    (∃ c ∈ exCategoryDb.categories, c.name = pyStrip "" ∧ c.id ≠ 2) ∧
    (admin_category_edit exCategoryDb [] true 2 "" "" none).2.2.2 = .updated ∧
    (admin_category_edit exCategoryDb [] true 2 "" "" none).2.2.2
      ≠ .duplicateName ∧
    (admin_category_edit exCategoryDb [] true 2 "" "" none).1 = exCategoryDb := by
  decide

/-- C4 as amended: for every non-empty submitted name (after stripping),
creating a category with the name of an existing one, or renaming another
category to it, is refused with a duplicate-name notice and exactly one
category with that name remains persisted.  The rejecting edit request
commits nothing and never touches a stored name (the name is assigned only
after the check), but the description/image mutations already applied to
the session-held Category object are not rolled back; they reach the row
at the scoped session's next commit without changing any name, so the
name count is still one after that flush. -/
theorem C4_duplicate_category_name (db : Db) (uploads : List String)
    (nameIn desc : String) (im : Option FileStorage) (newId cid : Nat)
    (c : Category)
    (hname : pyStrip nameIn ≠ "")
    (hcount : db.categories.countP (fun t => t.name == pyStrip nameIn) = 1)
    (hids : (db.categories.map Category.id).Nodup)
    (hc : db.categories.find? (fun t => t.id == cid) = some c)
    (hcname : c.name ≠ pyStrip nameIn) :
    admin_category_new db uploads true nameIn desc im newId
      = (db, (maybeSaveImage im uploads).2, .duplicateName) ∧
    (admin_category_edit db uploads true cid nameIn desc im).2.2.2
      = .duplicateName ∧
    (admin_category_edit db uploads true cid nameIn desc im).1 = db ∧
    (∀ pc, (admin_category_edit db uploads true cid nameIn desc im).2.1
        = some pc → pc.name = c.name ∧ pc.id = c.id) ∧
    (category_session_commit
        (admin_category_edit db uploads true cid nameIn desc im).1
        (admin_category_edit db uploads true cid nameIn desc im).2.1).categories.countP
      (fun t => t.name == pyStrip nameIn) = 1 := by
  have hex : ∃ o ∈ db.categories, (o.name == pyStrip nameIn) = true := by
    refine List.countP_pos_iff.mp ?_
    omega
  obtain ⟨o, ho, hop⟩ := hex
  have hcmem : c ∈ db.categories := List.mem_of_find?_eq_some hc
  have hoid : o.id ≠ c.id := by
    intro he
    have hoc : o = c := List.inj_on_of_nodup_map hids ho hcmem he
    rw [hoc] at hop
    exact hcname (by simpa using hop)
  have hfind2 : ((db.categories.find?
      (fun t => t.name == pyStrip nameIn && t.id != c.id)).isSome) = true :=
    List.find?_isSome.mpr ⟨o, ho, by simp [hop, hoid]⟩
  have hedit : admin_category_edit db uploads true cid nameIn desc im
      = (db, some (pendingOf c desc im uploads),
         (maybeSaveImage im uploads).2, .duplicateName) := by
    simp only [admin_category_edit, hc, if_neg (by simp : ¬(true = false))]
    rw [if_pos ⟨hname, fun he => hcname he.symm, hfind2⟩]
    cases hsv : (maybeSaveImage im uploads).1 <;>
      simp [pendingOf, hsv]
  have hpname : (pendingOf c desc im uploads).name = c.name := by
    unfold pendingOf
    cases (maybeSaveImage im uploads).1 <;> rfl
  have hpid : (pendingOf c desc im uploads).id = c.id := by
    unfold pendingOf
    cases (maybeSaveImage im uploads).1 <;> rfl
  refine ⟨?_, ?_, ?_, ?_, ?_⟩
  · have hfind : ((db.categories.find?
        (fun t => t.name == pyStrip nameIn)).isSome) = true :=
      List.find?_isSome.mpr ⟨o, ho, hop⟩
    simp [admin_category_new, hfind]
  · rw [hedit]
  · rw [hedit]
  · rw [hedit]
    intro pc hpc
    cases hpc
    exact ⟨hpname, hpid⟩
  · rw [hedit]
    simp only [category_session_commit]
    rw [List.countP_map]
    rw [List.countP_congr _]
    · exact hcount
    · intro a ha
      by_cases hid : (a.id == (pendingOf c desc im uploads).id) = true
      · have haid : a.id = c.id := by
          have h2 := eq_of_beq hid
          rw [hpid] at h2
          exact h2
        have hac : a = c := List.inj_on_of_nodup_map hids ha hcmem haid
        simp [Function.comp, hid, hpname, hpid, hac]
      · simp [Function.comp, hid]

/-- Witness for C4 at `exDupDb`: creating a second "A" and renaming "B" to
"A" both produce the duplicate-name notice, and the name count survives
the session's later flush of the pending object. -/
theorem C4_duplicate_category_name_witness :
    admin_category_new exDupDb [] true "A" "" none 3
      = (exDupDb, (maybeSaveImage none []).2, .duplicateName) ∧
    (admin_category_edit exDupDb [] true 2 "A" "" none).2.2.2
      = .duplicateName ∧
    (admin_category_edit exDupDb [] true 2 "A" "" none).1 = exDupDb ∧
    (∀ pc, (admin_category_edit exDupDb [] true 2 "A" "" none).2.1 = some pc →
      pc.name = ({ id := 2, name := "B" } : Category).name ∧
      pc.id = ({ id := 2, name := "B" } : Category).id) ∧
    (category_session_commit
        (admin_category_edit exDupDb [] true 2 "A" "" none).1
        (admin_category_edit exDupDb [] true 2 "A" "" none).2.1).categories.countP
      (fun t => t.name == pyStrip "A") = 1 :=
  C4_duplicate_category_name exDupDb [] "A" "" none 3 2
    { id := 2, name := "B" } (by decide) (by decide) (by decide) (by decide)
    (by decide)

/-- Witness for C8: a database with one category, style and product whose
`public_shopfront` flag has been switched off through `set_flag`. -/
theorem C8_gated_pages_witness :
    get_flag exGatedDb.site_settings "public_shopfront" true = false ∧
    index exGatedDb false = .siteClosed ∧
    style_detail exGatedDb false 1 = .notFound ∧
    product_detail exGatedDb false 1 = .notFound ∧
    index exGatedDb true = .listing [{ id := 1, name := "bibs" }] 0 0 ∧
    product_detail exGatedDb true 1
      = .page { id := 1, name := "bib-1", price_cents := 39000,
                category_id := some 1, style_id := some 1 } := by
  have hdb : exGatedDb.categories.find? (fun t => t.id == 1)
      = some { id := 1, name := "bibs" } := by decide
  have hst : exGatedDb.styles.find? (fun t => t.id == 1)
      = some { id := 1, category_id := 1, name := "round" } := by decide
  have hpr : exGatedDb.products.find? (fun t => t.id == 1)
      = some { id := 1, name := "bib-1", price_cents := 39000,
               category_id := some 1, style_id := some 1 } := by decide
  have h := C8_gated_pages exGatedDb 1 1 1 { id := 1, name := "bibs" }
    { id := 1, category_id := 1, name := "round" }
    { id := 1, name := "bib-1", price_cents := 39000,
      category_id := some 1, style_id := some 1 } (by decide) hdb hst hpr
  refine ⟨by decide, h.1, h.2.2.1, h.2.2.2.1, ?_, h.2.2.2.2.2.2.2.1⟩
  have h3 := h.2.2.2.2.1
  simpa [orderByIdDesc, insertByIdDesc] using h3

end Shopsite
